import Mathlib

/-!
Shallow embedding of the clip-scene frontend (tomrodww/clip-scene) used to
check the specification's claims.

Conventions used throughout:
* JS numbers that only ever hold exact values in the relevant code paths are
  modelled as `ℚ` (drag positions, parsed timecodes) or `ℕ` (counts, integral
  second offsets); `NaN` is modelled as `none` in an `Option`.
* JS strings are Lean `String`s; character-level work happens on `.toList`.
* Promise-returning polling loops are modelled as functions from the list of
  successive fetch outcomes to `Option (Except e a)`: `none` means the promise
  is still pending when the outcomes run out, `some (.ok v)` means it resolved
  with `v`, `some (.error m)` means it rejected with message `m`.
-/

namespace ClipScene

/-- Decidable equality for promise results, used to evaluate the polling
models on concrete runs. -/
instance {ε α : Type} [DecidableEq ε] [DecidableEq α] : DecidableEq (Except ε α)
  | .ok a, .ok b =>
    if h : a = b then .isTrue (by rw [h]) else .isFalse (by simp [h])
  | .ok _, .error _ => .isFalse (by simp)
  | .error _, .ok _ => .isFalse (by simp)
  | .error e, .error f =>
    if h : e = f then .isTrue (by rw [h]) else .isFalse (by simp [h])

/-! ## JS string primitives -/

/-- Accumulator version of splitting a character list at `':'`.
Models `String.prototype.split(':')`: `splitColonAux [] "a:b:c"` yields the
chunks between colons, with empty chunks kept (`"::" ↦ ["", "", ""]`). -/
def splitColonAux (acc : List Char) : List Char → List (List Char)
  | [] => [acc.reverse]
  | c :: rest =>
    if c = ':' then acc.reverse :: splitColonAux [] rest
    else splitColonAux (c :: acc) rest

/-- Model of the JS `timeString.split(':')` call on a string's characters. -/
def splitColon (s : List Char) : List (List Char) := splitColonAux [] s

/-- Numeric value of a decimal digit character (`'7' ↦ 7`). -/
def digitVal (c : Char) : ℕ := c.toNat - 48

/-- Model of the JS `Number(...)` coercion on the fragment exercised by this
codebase: the empty string coerces to `0`, a nonempty all-digit string to its
decimal value (always a non-negative integer here), and anything else (for
our purposes) to `NaN`, modelled as `none`. -/
def jsNumber (s : List Char) : Option ℕ :=
  if s.all Char.isDigit then some (s.foldl (fun a c => 10 * a + digitVal c) 0)
  else none

/-- Decimal digit character (`7 ↦ '7'`), as produced by JS `Number.prototype.toString()`. -/
def digitChar (d : ℕ) : Char := Char.ofNat (48 + d)

/-- Decimal digits with explicit fuel (structural recursion so that the
kernel can evaluate it; the fuel in `natDigits` is always sufficient). -/
def natDigitsAux : ℕ → ℕ → List Char
  | 0, _ => []
  | fuel + 1, n =>
    if n < 10 then [digitChar n] else natDigitsAux fuel (n / 10) ++ [digitChar (n % 10)]

/-- Decimal digits of a natural number, most significant first; models JS
`n.toString()` for non-negative integers. -/
def natDigits (n : ℕ) : List Char := natDigitsAux (n + 1) n

/-- Model of JS `s.padStart(2, '0')`. -/
def padStart2 (s : List Char) : List Char := List.replicate (2 - s.length) '0' ++ s

/-- Model of the JS `value || fallback` idiom on an optional string: both a
missing value and the empty string are falsy and select the fallback. -/
def jsOrString (value : Option String) (fallback : String) : String :=
  match value with
  | some s => if s = "" then fallback else s
  | none => fallback

/-- Model of JS `s.toLowerCase()` on a string's characters (the Basic Latin
range, which is all that the matched tokens use). -/
def jsToLower (s : String) : List Char := s.toList.map Char.toLower

/-- Model of JS `s.trim()`: strip leading and trailing whitespace. -/
def jsTrim (s : String) : String :=
  ⟨((s.toList.dropWhile Char.isWhitespace).reverse.dropWhile Char.isWhitespace).reverse⟩

/-- Model of JS `haystack.includes(pat)`: `pat` occurs as a contiguous
substring of the second argument. -/
def listIncludes (pat : List Char) : List Char → Bool
  | [] => pat.isEmpty
  | c :: rest => pat.isPrefixOf (c :: rest) || listIncludes pat rest

/-! ## TimeCodec (VideoPlayer.tsx `parseTimeToSeconds`, part_003 `calculateTotalDuration`) -/

/-- Embedding of `parseTimeToSeconds` (src/src/components/VideoPlayer.tsx,
lines 55-62): split on `':'`, coerce each part with `Number`, and when there
are exactly three parts return `hours*3600 + minutes*60 + seconds` (`none`
models the `NaN` result when a part is not numeric); otherwise return `0`. -/
def parseTimeToSeconds (timeString : String) : Option ℕ :=
  match (splitColon timeString.toList).map jsNumber with
  | [some hours, some minutes, some seconds] => some (hours * 3600 + minutes * 60 + seconds)
  | [_, _, _] => none
  | _ => some 0

/-- Embedding of the `HH:MM:SS` formatting step of `calculateTotalDuration`
(src/unnamed/part_003, lines 34-38): zero-padded hours, minutes and seconds
derived from a total number of seconds by floor division. -/
def formatDuration (totalSeconds : ℕ) : List Char :=
  padStart2 (natDigits (totalSeconds / 3600)) ++
    ':' :: (padStart2 (natDigits (totalSeconds % 3600 / 60)) ++
      ':' :: padStart2 (natDigits (totalSeconds % 60)))

/-! ## FormatCatalog (src/src/lib/quality-utils.ts) -/

/-- Quality levels from quality-utils.ts (`type QualityOption`). -/
inductive QualityOption
  | q720p
  | q1080p
  | q1440p
  | q4K
deriving DecidableEq, BEq, Repr

/-- Format descriptor from quality-utils.ts (interface `VideoFormat`).
`fps` is `string | number` in the source; `note` and `filesize_mb` are
optional. -/
structure VideoFormat where
  format_id : String
  quality_label : String
  resolution : String
  fps : String ⊕ ℚ
  ext : String
  filesize_mb : Option ℚ
  note : Option String
deriving DecidableEq, Repr

/-- Embedding of `getTargetResolution` (quality-utils.ts, lines 69-77). -/
def getTargetResolution : QualityOption → String
  | .q4K => "2160"
  | .q1440p => "1440"
  | .q1080p => "1080"
  | .q720p => "720"

/-- Embedding of `isQualityAvailable` (quality-utils.ts, lines 16-30): some
format's lowercased resolution contains the target resolution token, or one
of the per-quality redundant disjuncts matches. -/
def isQualityAvailable (quality : QualityOption) (formats : List VideoFormat) : Bool :=
  let targetResolution := getTargetResolution quality
  formats.any fun format =>
    let resolution := jsToLower format.resolution
    listIncludes targetResolution.toList resolution ||
    (quality == QualityOption.q4K &&
      (listIncludes "2160".toList resolution || listIncludes "4k".toList resolution)) ||
    (quality == QualityOption.q1440p && listIncludes "1440".toList resolution) ||
    (quality == QualityOption.q1080p && listIncludes "1080".toList resolution) ||
    (quality == QualityOption.q720p && listIncludes "720".toList resolution)

/-- Default preference order of `getBestAvailableQuality` (quality-utils.ts,
line 56). -/
def defaultPreferenceOrder : List QualityOption :=
  [.q1080p, .q1440p, .q720p, .q4K]

/-- Embedding of `getBestAvailableQuality` (quality-utils.ts, lines 54-64):
walk the preference order and return the first available quality, else
`null`. -/
def getBestAvailableQuality (formats : List VideoFormat) : List QualityOption → Option QualityOption
  | [] => none
  | quality :: rest =>
    if isQualityAvailable quality formats then some quality
    else getBestAvailableQuality formats rest

/-! ## RangeModel / Scrubber (src/src/components/VideoPlayer.tsx) -/

/-- Drag target of the scrubber (`isDragging` state). The source's values are
the strings `start`, `end` and `seek`; `end` is a Lean keyword, hence the
`Handle` suffix. -/
inductive DragTarget
  | startHandle
  | endHandle
  | seek
deriving DecidableEq, Repr

/-- Live range state of the editor: `startTime` and `endTime` in seconds. -/
structure RangeState where
  startTime : ℚ
  endTime : ℚ
deriving DecidableEq, Repr

/-- Initial range state of the editor (VideoPlayer.tsx lines 32-33:
`useState(0)` and `useState(30)`; the default props `"00:00:00"` and
`"00:00:30"` re-seed the same values). -/
def initialRangeState : RangeState := ⟨0, 30⟩

/-- Clamp to the unit interval, as in
`Math.max(0, Math.min(1, dragX / rect.width))`. -/
def clamp01 (x : ℚ) : ℚ := max 0 (min 1 x)

/-- Embedding of `handleDragMove` (VideoPlayer.tsx, lines 130-152) acting on
the range state. `ratio` is the raw pointer position `dragX / rect.width`;
the candidate time is `clamp01 ratio * duration`. A start drag clamps to
`endTime - 1` from above, an end drag clamps to `startTime + 1` from below;
a `seek` target leaves the range untouched (no branch handles it). The
player-seek side effect of a start drag does not affect the range state. -/
def handleDragMove (duration : ℚ) (isDragging : DragTarget) (ratio : ℚ)
    (st : RangeState) : RangeState :=
  let percentage := clamp01 ratio
  let newTime := percentage * duration
  match isDragging with
  | .startHandle => { st with startTime := min newTime (st.endTime - 1) }
  | .endHandle => { st with endTime := max newTime (st.startTime + 1) }
  | .seek => st

/-- All states visited by a drag sequence, starting state included. -/
def dragStates (duration : ℚ) (st : RangeState) : List (DragTarget × ℚ) → List RangeState
  | [] => [st]
  | (target, ratio) :: rest =>
    st :: dragStates duration (handleDragMove duration target ratio st) rest

/-! ## RemoteClient and JobOrchestrator (src/unnamed/part_000, src/unnamed/part_001) -/

/-- Per-clip entry of a unified job snapshot (src/unnamed/part_000, interface
`JobStatusWithProgress.clips`). -/
structure ProgressClipEntry where
  index : ℕ
  title : String
  start_time : String
  end_time : String
  file_path : String
  file_size : ℕ
deriving DecidableEq, Repr

/-- Unified job snapshot (src/unnamed/part_000, interface
`JobStatusWithProgress`); `status` is an open string in the source. -/
structure JobStatusWithProgress where
  status : String
  current_step : String
  total_clips : ℕ
  completed_clips : ℕ
  clips : List ProgressClipEntry
  video_id : Option String
  error : Option String
  progress_percentage : ℚ
deriving DecidableEq, Repr

/-- Outcome of one `fetch` of `GET /job/{job_id}` inside
`pollUnifiedJobStatus`: a 2xx response with a parsed snapshot, a non-2xx
response (`response.ok` false), or a thrown rejection from `fetch`/`json`. -/
inductive UnifiedPollEvent
  | ok (snapshot : JobStatusWithProgress)
  | httpFailure
  | thrown (message : String)
deriving DecidableEq, Repr

/-- Embedding of `ClipSceneAPI.pollUnifiedJobStatus` (src/unnamed/part_000,
lines 92-120) as a run over the successive fetch outcomes: a non-2xx poll
rejects with the fixed message, a thrown rejection propagates, a snapshot
whose status is `completed` or `error` clears the interval and resolves the
promise with that snapshot, and any other snapshot lets the interval poll
again. `none` means the promise is still pending after the given outcomes. -/
def pollUnifiedJobStatus : List UnifiedPollEvent → Option (Except String JobStatusWithProgress)
  | [] => none
  | .httpFailure :: _ => some (.error "Failed to get job status")
  | .thrown message :: _ => some (.error message)
  | .ok status :: rest =>
    if status.status = "completed" || status.status = "error" then some (.ok status)
    else pollUnifiedJobStatus rest

/-- A `setInterval` handle created by one of the polling functions, tagged
with the job id it polls and whether `clearInterval` has run on it. -/
structure PollLoopHandle where
  jobId : String
  cleared : Bool
deriving DecidableEq, Repr

/-- Loop creation performed by a call to `pollUnifiedJobStatus` (or
`pollJobStatus`): the function body unconditionally creates a fresh polling
loop; no existing loop for the same job id is consulted or cancelled. -/
def startUnifiedPollLoop (jobId : String) (loops : List PollLoopHandle) : List PollLoopHandle :=
  loops ++ [⟨jobId, false⟩]

/-- Number of uncancelled polling loops currently fetching a given job id. -/
def activeLoopCount (jobId : String) (loops : List PollLoopHandle) : ℕ :=
  (loops.filter fun loop => loop.jobId == jobId && !loop.cleared).length

/-- Legacy job phase (src/unnamed/part_001, `JobStatus.status` union type). -/
inductive JobPhase
  | downloading
  | processing
  | completed
  | error
deriving DecidableEq, Repr

/-- Processed clip entry (src/unnamed/part_001, interface `ProcessedClip`). -/
structure ProcessedClip where
  index : ℕ
  title : String
  start_time : String
  end_time : String
  file_path : String
  file_size : ℕ
deriving DecidableEq, Repr

/-- Legacy job snapshot (src/unnamed/part_001, interface `JobStatus`). -/
structure JobStatus where
  status : JobPhase
  current_step : Option String
  total_clips : ℕ
  completed_clips : ℕ
  clips : List ProcessedClip
  error : Option String
deriving DecidableEq, Repr

/-- Video download phase (src/unnamed/part_001, `VideoStatus.status`). -/
inductive VideoPhase
  | downloading
  | completed
  | error
deriving DecidableEq, Repr

/-- Video download snapshot (src/unnamed/part_001, interface `VideoStatus`). -/
structure VideoStatus where
  status : VideoPhase
  current_step : Option String
  youtube_url : String
  title : Option String
  file_path : Option String
  file_size : ℕ
  error : Option String
deriving DecidableEq, Repr

/-- Outcome of one HTTP GET inside a legacy polling loop: a 2xx response with
a parsed body, a non-2xx response carrying the optional `detail` field of its
JSON body, or a thrown rejection. -/
inductive HttpEvent (α : Type)
  | ok (body : α)
  | httpError (detail : Option String)
  | thrown (message : String)
deriving DecidableEq, Repr

/-- Embedding of `ClipSceneAPI.getJobStatus` (src/unnamed/part_001, lines
188-197): a non-2xx response throws `error.detail || 'Failed to get job
status'`. -/
def getJobStatus (response : HttpEvent JobStatus) : Except String JobStatus :=
  match response with
  | .ok body => .ok body
  | .httpError detail => .error (jsOrString detail "Failed to get job status")
  | .thrown message => .error message

/-- Embedding of `ClipSceneAPI.getVideoStatus` (src/unnamed/part_001, lines
104-113): a non-2xx response throws `error.detail || 'Failed to get video
status'`. -/
def getVideoStatus (response : HttpEvent VideoStatus) : Except String VideoStatus :=
  match response with
  | .ok body => .ok body
  | .httpError detail => .error (jsOrString detail "Failed to get video status")
  | .thrown message => .error message

/-- Embedding of `ClipSceneAPI.pollJobStatus` (src/unnamed/part_001, lines
203-228) as a run over successive fetch outcomes: resolve on `completed`,
reject with `status.error || 'Processing failed'` on `error`, reject with the
thrown message on a failed fetch, otherwise schedule the next poll. The
`onUpdate` callback does not affect the returned promise and is omitted. -/
def pollJobStatus : List (HttpEvent JobStatus) → Option (Except String JobStatus)
  | [] => none
  | response :: rest =>
    match getJobStatus response with
    | .error e => some (.error e)
    | .ok status =>
      match status.status with
      | .completed => some (.ok status)
      | .error => some (.error (jsOrString status.error "Processing failed"))
      | _ => pollJobStatus rest

/-- Embedding of `ClipSceneAPI.pollVideoStatus` (src/unnamed/part_001, lines
143-168), structured exactly like `pollJobStatus` with the `'Download
failed'` fallback. -/
def pollVideoStatus : List (HttpEvent VideoStatus) → Option (Except String VideoStatus)
  | [] => none
  | response :: rest =>
    match getVideoStatus response with
    | .error e => some (.error e)
    | .ok status =>
      match status.status with
      | .completed => some (.ok status)
      | .error => some (.error (jsOrString status.error "Download failed"))
      | _ => pollVideoStatus rest

/-! ## ClipSet and submission (src/src/app/page.tsx) -/

/-- Clip entry of the editor (src/unnamed/part_002, interface `ClipData`). -/
structure ClipData where
  id : String
  startTime : String
  endTime : String
  title : Option String
deriving DecidableEq, Repr

/-- Editable field of a clip (`keyof Omit<ClipData, 'id'>`). -/
inductive ClipField
  | startTime
  | endTime
  | title
deriving DecidableEq, Repr

/-- The spread-update `{ ...clip, [field]: value }` of `updateClip`. -/
def setClipField (clip : ClipData) (field : ClipField) (value : String) : ClipData :=
  match field with
  | .startTime => { clip with startTime := value }
  | .endTime => { clip with endTime := value }
  | .title => { clip with title := some value }

/-- Embedding of `updateClip` (src/src/app/page.tsx, lines 43-47): map over
the list, replacing the named field of every clip whose id matches. -/
def updateClip (clips : List ClipData) (id : String) (field : ClipField) (value : String) :
    List ClipData :=
  clips.map fun clip => if clip.id = id then setClipField clip field value else clip

/-- Embedding of `removeClip` (src/src/app/page.tsx, lines 37-41): when the
list is nonempty, keep exactly the clips whose id differs. -/
def removeClip (clips : List ClipData) (id : String) : List ClipData :=
  if clips.length > 0 then clips.filter (fun clip => clip.id != id) else clips

/-- Embedding of `validateTimeFormat` (src/src/app/page.tsx, lines 65-68),
the strict submission-time regex
`^([0-1]?[0-9]|2[0-3]):[0-5][0-9]:[0-5][0-9]$`. -/
def validateTimeFormat (time : String) : Bool :=
  match time.toList with
  | [h, ':', m1, m2, ':', s1, s2] =>
    decide ((48 ≤ h.toNat ∧ h.toNat ≤ 57) ∧
      (48 ≤ m1.toNat ∧ m1.toNat ≤ 53) ∧ (48 ≤ m2.toNat ∧ m2.toNat ≤ 57) ∧
      (48 ≤ s1.toNat ∧ s1.toNat ≤ 53) ∧ (48 ≤ s2.toNat ∧ s2.toNat ≤ 57))
  | [h1, h2, ':', m1, m2, ':', s1, s2] =>
    decide (((48 ≤ h1.toNat ∧ h1.toNat ≤ 49) ∧ (48 ≤ h2.toNat ∧ h2.toNat ≤ 57) ∨
        h1 = '2' ∧ (48 ≤ h2.toNat ∧ h2.toNat ≤ 51)) ∧
      (48 ≤ m1.toNat ∧ m1.toNat ≤ 53) ∧ (48 ≤ m2.toNat ∧ m2.toNat ≤ 57) ∧
      (48 ≤ s1.toNat ∧ s1.toNat ≤ 53) ∧ (48 ≤ s2.toNat ∧ s2.toNat ≤ 57))
  | _ => false

/-- Clip payload sent to the backend (`ClipData` of src/unnamed/part_000:
`{title?, start_time, end_time}`). -/
structure ClipPayload where
  title : Option String
  start_time : String
  end_time : String
deriving DecidableEq, Repr

/-- Conversion performed by the submit handlers:
`{title: clip.title, start_time: clip.startTime, end_time: clip.endTime}`. -/
def clipPayload (clip : ClipData) : ClipPayload :=
  ⟨clip.title, clip.startTime, clip.endTime⟩

/-- The `invalidClips` filter shared by `handleSubmit` and
`handleCreateClips` (src/src/app/page.tsx, lines 135-137 and 196-198). -/
def invalidClips (clips : List ClipData) : List ClipData :=
  clips.filter fun clip => !validateTimeFormat clip.startTime || !validateTimeFormat clip.endTime

/-- The job-related UI state touched by the submit handlers. -/
structure JobUiState where
  jobId : Option String
  jobStatus : Option JobStatus
  isProcessing : Bool
  error : Option String
deriving DecidableEq, Repr

/-- What a submit handler does after its synchronous validation prefix:
either it surfaced a validation `alert` and returned, or it proceeded to the
network call with the given request payload. -/
inductive SubmitOutcome
  | validationAlert (message : String)
  | networkSubmit (youtube_url : String) (clips : List ClipPayload)
deriving DecidableEq, Repr

/-- Embedding of the synchronous prefix of `handleSubmit` (src/src/app/page.tsx,
lines 182-234): validate URL, clip count and clip timecodes in order, alerting
and returning on the first failure; otherwise flip `isProcessing`, clear
`error` and `jobStatus`, and issue the `createClips` request. -/
def handleSubmit (youtubeUrl : String) (clips : List ClipData) (st : JobUiState) :
    JobUiState × SubmitOutcome :=
  if jsTrim youtubeUrl = "" then (st, .validationAlert "Please enter a YouTube URL")
  else if clips.length = 0 then
    (st, .validationAlert "Please add at least one clip before creating clips")
  else if (invalidClips clips).length > 0 then
    (st, .validationAlert "Please enter valid time formats (hh:mm:ss) for all clips")
  else
    ({ st with isProcessing := true, error := none, jobStatus := none },
      .networkSubmit (jsTrim youtubeUrl) (clips.map clipPayload))

/-- Downloaded-video info (src/unnamed/part_001, interface `VideoInfo`). -/
structure VideoInfo where
  video_id : String
  title : String
  file_size : ℕ
  youtube_url : String
deriving DecidableEq, Repr

/-- Outcome of the synchronous prefix of `handleCreateClips`. -/
inductive CreateClipsOutcome
  | validationAlert (message : String)
  | networkSubmit (video_id : String) (clips : List ClipPayload)
deriving DecidableEq, Repr

/-- Embedding of the synchronous prefix of `handleCreateClips`
(src/src/app/page.tsx, lines 124-170): require a downloaded video, a
nonempty clip list and valid clip timecodes, alerting and returning on the
first failure; otherwise flip `isProcessing`, clear `error` and `jobStatus`,
and issue the `createClipsFromVideo` request. The component's `youtubeUrl`
state is in scope but never consulted by this handler; it is kept as a
parameter to state that fact. -/
def handleCreateClips (youtubeUrl : String) (downloadedVideo : Option VideoInfo)
    (clips : List ClipData) (st : JobUiState) : JobUiState × CreateClipsOutcome :=
  match downloadedVideo with
  | none => (st, .validationAlert "Please download a video first")
  | some video =>
    if clips.length = 0 then
      (st, .validationAlert "Please add at least one clip before creating clips")
    else if (invalidClips clips).length > 0 then
      (st, .validationAlert "Please enter valid time formats (hh:mm:ss) for all clips")
    else
      ({ st with isProcessing := true, error := none, jobStatus := none },
        .networkSubmit video.video_id (clips.map clipPayload))

/-! ## Concrete fixtures used by witnesses and counterexamples -/

/-- Format list offering only 720p and 4K resolutions (claim C5's example). -/
def formatsOffering720and4K : List VideoFormat :=
  [⟨"136", "720p", "1280x720", Sum.inl "30", "mp4", none, none⟩,
   ⟨"313", "2160p", "3840x2160", Sum.inr 60, "webm", some 812, none⟩]

/-- Unified job snapshot reporting a remote error (claim C2's example). -/
def geoBlockedSnapshot : JobStatusWithProgress :=
  ⟨"error", "failed", 1, 0, [], none, some "geo-blocked", 0⟩

/-- Unified job snapshot still in flight. -/
def processingSnapshot : JobStatusWithProgress :=
  ⟨"processing", "Creating clip 1/2", 2, 0, [], none, none, 50⟩

/-! ## Claim C5: best-available-quality selection -/

/-- Claim C5. `getBestAvailableQuality` returns the first quality of the
preference order for which `isQualityAvailable` holds (`List.find?` is
exactly that first-match semantics), `null` exactly when no quality in the
order is available, and on a format list offering only 720p and 4K with the
default preference order `[1080p, 1440p, 720p, 4K]` it returns `720p`. -/
theorem getBestAvailableQuality_first_preferred :
    (∀ (formats : List VideoFormat) (order : List QualityOption),
      getBestAvailableQuality formats order =
        order.find? fun quality => isQualityAvailable quality formats) ∧
    (∀ (formats : List VideoFormat) (order : List QualityOption),
      getBestAvailableQuality formats order = none ↔
        ∀ quality ∈ order, isQualityAvailable quality formats = false) ∧
    getBestAvailableQuality formatsOffering720and4K defaultPreferenceOrder =
      some QualityOption.q720p := by
  have hfind : ∀ (formats : List VideoFormat) (order : List QualityOption),
      getBestAvailableQuality formats order =
        order.find? fun quality => isQualityAvailable quality formats := by
    intro formats order
    induction order with
    | nil => rfl
    | cons quality rest ih =>
      by_cases h : isQualityAvailable quality formats <;>
        simp [getBestAvailableQuality, List.find?_cons, h, ih]
  refine ⟨hfind, ?_, by decide⟩
  intro formats order
  rw [hfind]
  simp [List.find?_eq_none]

/-! ## Claim C3: overlapping polling loops per job id -/

/-- Claim C3 (the code contradicts it). A call to `pollUnifiedJobStatus`
unconditionally creates a fresh `setInterval` fetch loop and consults no
registry of existing loops, so starting a poll for `"J1"` while a prior poll
for `"J1"` is outstanding (its interval not yet cleared) leaves two
concurrently active fetch loops for `"J1"`. -/
theorem startUnifiedPollLoop_overlaps :
    activeLoopCount "J1" (startUnifiedPollLoop "J1" (startUnifiedPollLoop "J1" [])) = 2 := by
  decide

/-! ## Claim C2: unified polling on a remote error snapshot -/

/-- Counterexample to claim C2: on a poll returning status `"error"` with
message `"geo-blocked"`, `pollUnifiedJobStatus` resolves with that snapshot
and does not reject with the message. -/
theorem pollUnifiedJobStatus_error_resolves_cex :
    geoBlockedSnapshot.status = "error" ∧
    geoBlockedSnapshot.error = some "geo-blocked" ∧
    pollUnifiedJobStatus [.ok geoBlockedSnapshot] = some (.ok geoBlockedSnapshot) ∧
    pollUnifiedJobStatus [.ok geoBlockedSnapshot] ≠ some (.error "geo-blocked") := by
  decide

/-- Claim C2 as amended: when a poll of the unified job returns a snapshot
with status `"error"`, the promise returned by `pollUnifiedJobStatus`
resolves with that snapshot (the first terminal one); it does not reject
because of the error status. Rejection is reserved for transport failures. -/
theorem pollUnifiedJobStatus_error_resolves (pre : List UnifiedPollEvent)
    (snapshot : JobStatusWithProgress) (rest : List UnifiedPollEvent)
    (hpre : ∀ e ∈ pre, ∃ s, e = UnifiedPollEvent.ok s ∧
      s.status ≠ "completed" ∧ s.status ≠ "error")
    (hs : snapshot.status = "error") :
    pollUnifiedJobStatus (pre ++ UnifiedPollEvent.ok snapshot :: rest) =
      some (Except.ok snapshot) := by
  induction pre with
  | nil => simp [pollUnifiedJobStatus, hs]
  | cons e pre ih =>
    obtain ⟨s, rfl, h1, h2⟩ := hpre e (by simp)
    have := ih fun x hx => hpre x (by simp [hx])
    simpa [pollUnifiedJobStatus, h1, h2] using this

/-- Witness for the amended claim C2 at a concrete run: one pending snapshot
followed by the geo-blocked error snapshot. -/
theorem pollUnifiedJobStatus_error_resolves_w :
    (∀ e ∈ [UnifiedPollEvent.ok processingSnapshot], ∃ s, e = UnifiedPollEvent.ok s ∧
      s.status ≠ "completed" ∧ s.status ≠ "error") ∧
    geoBlockedSnapshot.status = "error" ∧
    pollUnifiedJobStatus
        ([UnifiedPollEvent.ok processingSnapshot] ++ UnifiedPollEvent.ok geoBlockedSnapshot :: []) =
      some (Except.ok geoBlockedSnapshot) := by
  refine ⟨?_, by decide, ?_⟩
  · intro e he
    simp only [List.mem_singleton] at he
    exact ⟨processingSnapshot, he, by decide, by decide⟩
  · exact pollUnifiedJobStatus_error_resolves [UnifiedPollEvent.ok processingSnapshot]
      geoBlockedSnapshot []
      (fun e he => ⟨processingSnapshot, by simpa using he, by decide, by decide⟩)
      (by decide)

/-! ## Claim C1: drag-update range invariants -/

/-- Invariant preservation along a drag trace. -/
theorem dragStates_invariant {P : RangeState → Prop} (duration : ℚ)
    (st : RangeState) (steps : List (DragTarget × ℚ)) (h0 : P st)
    (hstep : ∀ s target ratio, P s → P (handleDragMove duration target ratio s)) :
    ∀ s ∈ dragStates duration st steps, P s := by
  induction steps generalizing st with
  | nil => simpa [dragStates] using h0
  | cons step rest ih =>
    obtain ⟨target, ratio⟩ := step
    intro s hs
    rcases (by simpa [dragStates] using hs :
        s = st ∨ s ∈ dragStates duration (handleDragMove duration target ratio st) rest) with
      rfl | hmem
    · exact h0
    · exact ih _ (hstep st target ratio h0) s hmem

/-- Bounds for the clamped candidate time `clamp01 ratio * duration`. -/
theorem newTime_bounds (duration : ℚ) (ratio : ℚ) (hd : 0 ≤ duration) :
    0 ≤ clamp01 ratio * duration ∧ clamp01 ratio * duration ≤ duration := by
  have h0 : 0 ≤ clamp01 ratio := le_max_left _ _
  have h1 : clamp01 ratio ≤ 1 := max_le (by norm_num) (min_le_left _ _)
  exact ⟨mul_nonneg h0 hd, mul_le_of_le_one_left hd h1⟩

/-- Counterexample to claim C1's range-bound part: with a video of duration
10 seconds, a single start-handle drag from the initial range state leaves
`endSeconds` at its initial value 30, outside `[0, duration]`. -/
theorem handleDragMove_range_cex :
    (handleDragMove 10 DragTarget.startHandle (1 / 2) initialRangeState).endTime = 30 ∧
    ¬ (handleDragMove 10 DragTarget.startHandle (1 / 2) initialRangeState).endTime ≤ 10 := by
  decide

/-- Claim C1 as amended: along every drag sequence from the initial range
state, `startSeconds < endSeconds` holds after every `updateDrag` step; a
start-handle drag never produces `startSeconds > endSeconds - 1`; an
end-handle drag never produces `endSeconds < startSeconds + 1`; and provided
the video duration is at least the initial end time of 30 seconds, both
`startSeconds` and `endSeconds` stay within `[0, duration]` (for shorter
videos the initial `endSeconds = 30` can stay above `duration`). -/
theorem handleDragMove_invariants (duration : ℚ) (steps : List (DragTarget × ℚ)) :
    (∀ s ∈ dragStates duration initialRangeState steps, s.startTime < s.endTime) ∧
    (∀ (s : RangeState) (ratio : ℚ),
      (handleDragMove duration DragTarget.startHandle ratio s).startTime ≤
        (handleDragMove duration DragTarget.startHandle ratio s).endTime - 1) ∧
    (∀ (s : RangeState) (ratio : ℚ),
      (handleDragMove duration DragTarget.endHandle ratio s).startTime + 1 ≤
        (handleDragMove duration DragTarget.endHandle ratio s).endTime) ∧
    (30 ≤ duration →
      ∀ s ∈ dragStates duration initialRangeState steps,
        0 ≤ s.startTime ∧ s.startTime < s.endTime ∧ s.endTime ≤ duration) := by
  refine ⟨?_, ?_, ?_, ?_⟩
  · refine dragStates_invariant duration initialRangeState steps (by norm_num [initialRangeState]) ?_
    intro s target ratio hs
    cases target with
    | startHandle =>
      show min (clamp01 ratio * duration) (s.endTime - 1) < s.endTime
      have := min_le_right (clamp01 ratio * duration) (s.endTime - 1)
      linarith
    | endHandle =>
      show s.startTime < max (clamp01 ratio * duration) (s.startTime + 1)
      have := le_max_right (clamp01 ratio * duration) (s.startTime + 1)
      linarith
    | seek => exact hs
  · intro s ratio
    exact min_le_right _ _
  · intro s ratio
    exact le_max_right _ _
  · intro hdur
    have hd : (0 : ℚ) ≤ duration := by linarith
    have hstrong : ∀ s ∈ dragStates duration initialRangeState steps,
        0 ≤ s.startTime ∧ s.startTime + 1 ≤ s.endTime ∧ s.endTime ≤ duration := by
      refine dragStates_invariant duration initialRangeState steps ?_ ?_
      · refine ⟨le_refl 0, by norm_num [initialRangeState], ?_⟩
        simpa [initialRangeState] using hdur
      · intro s target ratio hs
        obtain ⟨hs0, hs1, hs2⟩ := hs
        obtain ⟨ht0, ht1⟩ := newTime_bounds duration ratio hd
        cases target with
        | startHandle =>
          refine ⟨le_min ht0 (by linarith), ?_, hs2⟩
          show min (clamp01 ratio * duration) (s.endTime - 1) + 1 ≤ s.endTime
          have := min_le_right (clamp01 ratio * duration) (s.endTime - 1)
          linarith
        | endHandle =>
          exact ⟨hs0, le_max_right _ _, max_le ht1 (by linarith)⟩
        | seek => exact ⟨hs0, hs1, hs2⟩
    intro s hmem
    obtain ⟨h1, h2, h3⟩ := hstrong s hmem
    exact ⟨h1, by linarith, h3⟩

/-- Witness for the amended claim C1 at `duration = 30` and a one-step start
drag. -/
theorem handleDragMove_invariants_w :
    ((30 : ℚ) ≤ 30) ∧
    (∀ s ∈ dragStates 30 initialRangeState [(DragTarget.startHandle, 1 / 2)],
      s.startTime < s.endTime) ∧
    (∀ s ∈ dragStates 30 initialRangeState [(DragTarget.startHandle, 1 / 2)],
      0 ≤ s.startTime ∧ s.startTime < s.endTime ∧ s.endTime ≤ 30) := by
  have h := handleDragMove_invariants 30 [(DragTarget.startHandle, 1 / 2)]
  exact ⟨le_refl 30, h.1, h.2.2.2 (le_refl 30)⟩

/-! ## Claim C4: legacy polling terminal behaviour -/

/-- A fetch outcome that keeps the legacy job poll going: a 2xx response
whose snapshot is still `downloading` or `processing`. -/
def pendingJobEvent (e : HttpEvent JobStatus) : Prop :=
  ∃ s, e = HttpEvent.ok s ∧ (s.status = JobPhase.downloading ∨ s.status = JobPhase.processing)

/-- A fetch outcome that keeps the video poll going. -/
def pendingVideoEvent (e : HttpEvent VideoStatus) : Prop :=
  ∃ s, e = HttpEvent.ok s ∧ s.status = VideoPhase.downloading

/-- Pending fetches are consumed without settling the promise. -/
theorem pollJobStatus_append_pending (pre : List (HttpEvent JobStatus))
    (hpre : ∀ e ∈ pre, pendingJobEvent e) (l : List (HttpEvent JobStatus)) :
    pollJobStatus (pre ++ l) = pollJobStatus l := by
  induction pre with
  | nil => simp
  | cons e pre ih =>
    obtain ⟨s, rfl, hs⟩ := hpre e (by simp)
    have hrec := ih fun x hx => hpre x (by simp [hx])
    rcases hs with hs | hs <;> simp [pollJobStatus, getJobStatus, hs, hrec]

/-- Pending fetches are consumed without settling the promise. -/
theorem pollVideoStatus_append_pending (pre : List (HttpEvent VideoStatus))
    (hpre : ∀ e ∈ pre, pendingVideoEvent e) (l : List (HttpEvent VideoStatus)) :
    pollVideoStatus (pre ++ l) = pollVideoStatus l := by
  induction pre with
  | nil => simp
  | cons e pre ih =>
    obtain ⟨s, rfl, hs⟩ := hpre e (by simp)
    have hrec := ih fun x hx => hpre x (by simp [hx])
    simp [pollVideoStatus, getVideoStatus, hs, hrec]

/-- The legacy job poll only ever resolves with a `completed` snapshot. -/
theorem pollJobStatus_ok_completed :
    ∀ (events : List (HttpEvent JobStatus)) (s : JobStatus),
      pollJobStatus events = some (Except.ok s) → s.status = JobPhase.completed := by
  intro events
  induction events with
  | nil => intro s h; simp [pollJobStatus] at h
  | cons e rest ih =>
    intro s h
    cases e with
    | ok body =>
      cases hb : body.status with
      | completed =>
        simp [pollJobStatus, getJobStatus, hb] at h
        rw [← h, hb]
      | error => simp [pollJobStatus, getJobStatus, hb] at h
      | downloading =>
        exact ih s (by simpa [pollJobStatus, getJobStatus, hb] using h)
      | processing =>
        exact ih s (by simpa [pollJobStatus, getJobStatus, hb] using h)
    | httpError detail => simp [pollJobStatus, getJobStatus] at h
    | thrown msg => simp [pollJobStatus, getJobStatus] at h

/-- The video poll only ever resolves with a `completed` snapshot. -/
theorem pollVideoStatus_ok_completed :
    ∀ (events : List (HttpEvent VideoStatus)) (s : VideoStatus),
      pollVideoStatus events = some (Except.ok s) → s.status = VideoPhase.completed := by
  intro events
  induction events with
  | nil => intro s h; simp [pollVideoStatus] at h
  | cons e rest ih =>
    intro s h
    cases e with
    | ok body =>
      cases hb : body.status with
      | completed =>
        simp [pollVideoStatus, getVideoStatus, hb] at h
        rw [← h, hb]
      | error => simp [pollVideoStatus, getVideoStatus, hb] at h
      | downloading =>
        exact ih s (by simpa [pollVideoStatus, getVideoStatus, hb] using h)
    | httpError detail => simp [pollVideoStatus, getVideoStatus] at h
    | thrown msg => simp [pollVideoStatus, getVideoStatus] at h

/-- Claim C4. After any number of pending polls, `pollJobStatus` and
`pollVideoStatus` resolve with the fetched snapshot exactly when its status
is `completed`; they reject with the snapshot's error message (through the
`status.error || fallback` idiom, fallbacks `'Processing failed'` and
`'Download failed'`) when the status is `error`; and on a transport failure
(non-2xx response, which rejects with `detail || 'Failed to get ... status'`,
or a thrown fetch rejection) they reject at once, the outcome being
independent of any responses that would follow — no further fetch is
scheduled. -/
theorem legacy_poll_terminal_behaviour (pre : List (HttpEvent JobStatus))
    (preV : List (HttpEvent VideoStatus))
    (hpre : ∀ e ∈ pre, pendingJobEvent e)
    (hpreV : ∀ e ∈ preV, pendingVideoEvent e) :
    (∀ (s : JobStatus) (rest : List (HttpEvent JobStatus)), s.status = JobPhase.completed →
      pollJobStatus (pre ++ HttpEvent.ok s :: rest) = some (Except.ok s)) ∧
    (∀ (events : List (HttpEvent JobStatus)) (s : JobStatus),
      pollJobStatus events = some (Except.ok s) → s.status = JobPhase.completed) ∧
    (∀ (s : JobStatus) (rest : List (HttpEvent JobStatus)), s.status = JobPhase.error →
      pollJobStatus (pre ++ HttpEvent.ok s :: rest) =
        some (Except.error (jsOrString s.error "Processing failed"))) ∧
    (∀ (detail : Option String) (rest : List (HttpEvent JobStatus)),
      pollJobStatus (pre ++ HttpEvent.httpError detail :: rest) =
        some (Except.error (jsOrString detail "Failed to get job status")) ∧
      pollJobStatus (pre ++ HttpEvent.httpError detail :: rest) =
        pollJobStatus (pre ++ [HttpEvent.httpError detail])) ∧
    (∀ (msg : String) (rest : List (HttpEvent JobStatus)),
      pollJobStatus (pre ++ HttpEvent.thrown msg :: rest) = some (Except.error msg) ∧
      pollJobStatus (pre ++ HttpEvent.thrown msg :: rest) =
        pollJobStatus (pre ++ [HttpEvent.thrown msg])) ∧
    (∀ (s : VideoStatus) (rest : List (HttpEvent VideoStatus)), s.status = VideoPhase.completed →
      pollVideoStatus (preV ++ HttpEvent.ok s :: rest) = some (Except.ok s)) ∧
    (∀ (events : List (HttpEvent VideoStatus)) (s : VideoStatus),
      pollVideoStatus events = some (Except.ok s) → s.status = VideoPhase.completed) ∧
    (∀ (s : VideoStatus) (rest : List (HttpEvent VideoStatus)), s.status = VideoPhase.error →
      pollVideoStatus (preV ++ HttpEvent.ok s :: rest) =
        some (Except.error (jsOrString s.error "Download failed"))) ∧
    (∀ (detail : Option String) (rest : List (HttpEvent VideoStatus)),
      pollVideoStatus (preV ++ HttpEvent.httpError detail :: rest) =
        some (Except.error (jsOrString detail "Failed to get video status")) ∧
      pollVideoStatus (preV ++ HttpEvent.httpError detail :: rest) =
        pollVideoStatus (preV ++ [HttpEvent.httpError detail])) ∧
    (∀ (msg : String) (rest : List (HttpEvent VideoStatus)),
      pollVideoStatus (preV ++ HttpEvent.thrown msg :: rest) = some (Except.error msg) ∧
      pollVideoStatus (preV ++ HttpEvent.thrown msg :: rest) =
        pollVideoStatus (preV ++ [HttpEvent.thrown msg])) := by
  have hj := pollJobStatus_append_pending pre hpre
  have hv := pollVideoStatus_append_pending preV hpreV
  refine ⟨?_, pollJobStatus_ok_completed, ?_, ?_, ?_, ?_, pollVideoStatus_ok_completed, ?_, ?_, ?_⟩
  · intro s rest hs
    rw [hj]
    simp [pollJobStatus, getJobStatus, hs]
  · intro s rest hs
    rw [hj]
    simp [pollJobStatus, getJobStatus, hs]
  · intro detail rest
    rw [hj, hj]
    simp [pollJobStatus, getJobStatus]
  · intro msg rest
    rw [hj, hj]
    simp [pollJobStatus, getJobStatus]
  · intro s rest hs
    rw [hv]
    simp [pollVideoStatus, getVideoStatus, hs]
  · intro s rest hs
    rw [hv]
    simp [pollVideoStatus, getVideoStatus, hs]
  · intro detail rest
    rw [hv, hv]
    simp [pollVideoStatus, getVideoStatus]
  · intro msg rest
    rw [hv, hv]
    simp [pollVideoStatus, getVideoStatus]

/-- Witness for claim C4: empty pending prefixes, evaluated on concrete
snapshots. -/
theorem legacy_poll_terminal_behaviour_w :
    (∀ e ∈ ([] : List (HttpEvent JobStatus)), pendingJobEvent e) ∧
    (∀ e ∈ ([] : List (HttpEvent VideoStatus)), pendingVideoEvent e) ∧
    (∀ (s : JobStatus) (rest : List (HttpEvent JobStatus)), s.status = JobPhase.completed →
      pollJobStatus ([] ++ HttpEvent.ok s :: rest) = some (Except.ok s)) ∧
    (∀ (s : JobStatus) (rest : List (HttpEvent JobStatus)), s.status = JobPhase.error →
      pollJobStatus ([] ++ HttpEvent.ok s :: rest) =
        some (Except.error (jsOrString s.error "Processing failed"))) := by
  have h := legacy_poll_terminal_behaviour [] [] (by simp) (by simp)
  exact ⟨by simp, by simp, h.1, h.2.2.1⟩

/-! ## Claim C10: updateClip / removeClip frame conditions -/

/-- The matching-clip guard of `removeClip` is an ordinary filter even for
the empty list (where the source skips the `setClips` call). -/
theorem removeClip_eq_filter (clips : List ClipData) (id : String) :
    removeClip clips id = clips.filter fun clip => clip.id != id := by
  cases clips <;> simp [removeClip]

/-- Claim C10. `updateClip` preserves the length and order of the list, maps
every clip whose id differs to itself, and maps a clip whose id matches to
the same clip with only the named field replaced (`title` updates wrap the
value in `some`, mirroring the TS optional field); `removeClip` removes
exactly the clips whose id matches, preserving the order and multiplicity of
the rest; and when no clip carries the given id both operations return the
list unchanged. -/
theorem updateClip_removeClip_frame (clips : List ClipData) (id : String)
    (field : ClipField) (value : String) :
    ((updateClip clips id field value).length = clips.length) ∧
    (∀ (i : ℕ) (clip : ClipData), clips[i]? = some clip → clip.id ≠ id →
      (updateClip clips id field value)[i]? = some clip) ∧
    (∀ (i : ℕ) (clip : ClipData), clips[i]? = some clip → clip.id = id →
      (updateClip clips id field value)[i]? = some (setClipField clip field value) ∧
      (setClipField clip field value).id = clip.id ∧
      (match field with
        | ClipField.startTime =>
          (setClipField clip field value).startTime = value ∧
          (setClipField clip field value).endTime = clip.endTime ∧
          (setClipField clip field value).title = clip.title
        | ClipField.endTime =>
          (setClipField clip field value).endTime = value ∧
          (setClipField clip field value).startTime = clip.startTime ∧
          (setClipField clip field value).title = clip.title
        | ClipField.title =>
          (setClipField clip field value).title = some value ∧
          (setClipField clip field value).startTime = clip.startTime ∧
          (setClipField clip field value).endTime = clip.endTime)) ∧
    (∀ clip ∈ removeClip clips id, clip.id ≠ id) ∧
    ((removeClip clips id).Sublist clips) ∧
    (∀ clip : ClipData, (removeClip clips id).count clip =
      if clip.id = id then 0 else clips.count clip) ∧
    ((∀ clip ∈ clips, clip.id ≠ id) →
      updateClip clips id field value = clips ∧ removeClip clips id = clips) := by
  refine ⟨?_, ?_, ?_, ?_, ?_, ?_, ?_⟩
  · simp [updateClip]
  · intro i clip hi hne
    rw [updateClip, List.getElem?_map, hi]
    simp [hne]
  · intro i clip hi heq
    refine ⟨?_, ?_, ?_⟩
    · rw [updateClip, List.getElem?_map, hi]
      simp [heq]
    · cases field <;> simp [setClipField]
    · cases field <;> simp [setClipField]
  · intro clip hmem
    rw [removeClip_eq_filter] at hmem
    simpa using (List.mem_filter.mp hmem).2
  · rw [removeClip_eq_filter]
    exact List.filter_sublist clips
  · intro clip
    rw [removeClip_eq_filter]
    by_cases h : clip.id = id
    · simp only [h, if_pos rfl]
      refine List.count_eq_zero.mpr ?_
      intro hmem
      have hne := (List.mem_filter.mp hmem).2
      simp [h] at hne
    · rw [if_neg h]
      exact List.count_filter (by simpa using h)
  · intro hall
    constructor
    · rw [updateClip]
      have : ∀ clip ∈ clips,
          (if clip.id = id then setClipField clip field value else clip) = clip := by
        intro clip hmem
        simp [hall clip hmem]
      simpa using List.map_congr_left this
    · rw [removeClip_eq_filter]
      refine List.filter_eq_self.mpr ?_
      intro clip hmem
      simpa using hall clip hmem

/-- Witness for claim C10 at a concrete two-clip list. -/
theorem updateClip_removeClip_frame_w :
    ((updateClip [⟨"1", "00:00:00", "00:00:30", none⟩, ⟨"2", "00:01:00", "00:02:00", none⟩]
        "2" ClipField.startTime "00:01:30").length = 2) ∧
    (updateClip [⟨"1", "00:00:00", "00:00:30", none⟩, ⟨"2", "00:01:00", "00:02:00", none⟩]
        "2" ClipField.startTime "00:01:30")[0]? = some ⟨"1", "00:00:00", "00:00:30", none⟩ ∧
    (updateClip [⟨"1", "00:00:00", "00:00:30", none⟩, ⟨"2", "00:01:00", "00:02:00", none⟩]
        "2" ClipField.startTime "00:01:30")[1]? = some ⟨"2", "00:01:30", "00:02:00", none⟩ ∧
    removeClip [⟨"1", "00:00:00", "00:00:30", none⟩, ⟨"2", "00:01:00", "00:02:00", none⟩] "2" =
      [⟨"1", "00:00:00", "00:00:30", none⟩] := by
  have h := updateClip_removeClip_frame
    [⟨"1", "00:00:00", "00:00:30", none⟩, ⟨"2", "00:01:00", "00:02:00", none⟩]
    "2" ClipField.startTime "00:01:30"
  refine ⟨h.1, ?_, ?_, by decide⟩
  · exact h.2.1 0 ⟨"1", "00:00:00", "00:00:30", none⟩ (by decide) (by decide)
  · have := (h.2.2.1 1 ⟨"2", "00:01:00", "00:02:00", none⟩ (by decide) (by decide)).1
    simpa [setClipField] using this

/-! ## Claim C9: synchronous validation before submission -/

/-- Initial job-related UI state (src/src/app/page.tsx, lines 22-25). -/
def initialJobUiState : JobUiState := ⟨none, none, false, none⟩

/-- Downloaded-video fixture for the C9 evidence. -/
def demoVideoInfo : VideoInfo := ⟨"vid1", "Demo video", 512, "https://youtu.be/demo"⟩

/-- Well-formed clip fixture for the C9 evidence. -/
def demoValidClip : ClipData := ⟨"1", "00:00:00", "00:00:30", none⟩

/-- A clip failing one of the strict timecode checks yields a nonempty
`invalidClips` filter result. -/
theorem invalidClips_length_pos {clips : List ClipData} {clip : ClipData}
    (hmem : clip ∈ clips)
    (hbad : validateTimeFormat clip.startTime = false ∨ validateTimeFormat clip.endTime = false) :
    0 < (invalidClips clips).length := by
  have : clip ∈ invalidClips clips := by
    refine List.mem_filter.mpr ⟨hmem, ?_⟩
    rcases hbad with h | h <;> simp [h]
  exact List.length_pos.mpr fun he => by simp [he] at this

/-- Counterexample to claim C9: `handleCreateClips` never consults the URL,
so a submission attempt with an empty (hence empty-after-trim) URL, a
downloaded video and one valid clip issues the network request instead of
surfacing a validation message. -/
theorem handleCreateClips_ignores_url_cex :
    jsTrim "" = "" ∧
    (handleCreateClips "" (some demoVideoInfo) [demoValidClip] initialJobUiState).2 =
      CreateClipsOutcome.networkSubmit "vid1" [⟨none, "00:00:00", "00:00:30"⟩] ∧
    ∀ m, (handleCreateClips "" (some demoVideoInfo) [demoValidClip] initialJobUiState).2 ≠
      CreateClipsOutcome.validationAlert m := by
  refine ⟨by decide, by decide, ?_⟩
  intro m h
  rw [show (handleCreateClips "" (some demoVideoInfo) [demoValidClip] initialJobUiState).2 =
      CreateClipsOutcome.networkSubmit "vid1" [⟨none, "00:00:00", "00:00:30"⟩] from by decide] at h
  exact CreateClipsOutcome.noConfusion h

/-- Claim C9 as amended: for `handleSubmit`, an empty trimmed URL, an empty
clip list, or a clip failing the strict `validateTimeFormat` check each make
the handler surface a validation message synchronously, issue no network
request and leave the job state untouched; for `handleCreateClips` the same
holds for the empty-clip-list and invalid-timecode conditions (and for a
missing downloaded video), but the URL is not consulted — an empty URL does
not block `handleCreateClips`. -/
theorem submission_validation_guards (youtubeUrl : String) (clips : List ClipData)
    (st : JobUiState) (downloadedVideo : Option VideoInfo) :
    ((jsTrim youtubeUrl = "" ∨ clips = [] ∨
        ∃ clip ∈ clips, validateTimeFormat clip.startTime = false ∨
          validateTimeFormat clip.endTime = false) →
      (handleSubmit youtubeUrl clips st).1 = st ∧
      ∃ m, (handleSubmit youtubeUrl clips st).2 = SubmitOutcome.validationAlert m) ∧
    ((clips = [] ∨
        ∃ clip ∈ clips, validateTimeFormat clip.startTime = false ∨
          validateTimeFormat clip.endTime = false) →
      (handleCreateClips youtubeUrl downloadedVideo clips st).1 = st ∧
      ∃ m, (handleCreateClips youtubeUrl downloadedVideo clips st).2 =
        CreateClipsOutcome.validationAlert m) := by
  constructor
  · intro hcond
    by_cases hurl : jsTrim youtubeUrl = ""
    · exact ⟨by simp [handleSubmit, hurl], "Please enter a YouTube URL",
        by simp [handleSubmit, hurl]⟩
    · rcases hcond with hcond | hclips | ⟨clip, hmem, hbad⟩
      · exact absurd hcond hurl
      · exact ⟨by simp [handleSubmit, hurl, hclips],
          "Please add at least one clip before creating clips",
          by simp [handleSubmit, hurl, hclips]⟩
      · have hpos := invalidClips_length_pos hmem hbad
        have hlen : clips.length ≠ 0 := by
          intro h0
          rw [List.length_eq_zero.mp h0] at hmem
          simp at hmem
        exact ⟨by simp [handleSubmit, hurl, hlen, hpos, Nat.pos_iff_ne_zero.mp hpos],
          "Please enter valid time formats (hh:mm:ss) for all clips",
          by simp [handleSubmit, hurl, hlen, hpos, Nat.pos_iff_ne_zero.mp hpos]⟩
  · intro hcond
    cases downloadedVideo with
    | none => exact ⟨rfl, "Please download a video first", rfl⟩
    | some video =>
      rcases hcond with hclips | ⟨clip, hmem, hbad⟩
      · exact ⟨by simp [handleCreateClips, hclips],
          "Please add at least one clip before creating clips",
          by simp [handleCreateClips, hclips]⟩
      · have hpos := invalidClips_length_pos hmem hbad
        have hlen : clips.length ≠ 0 := by
          intro h0
          rw [List.length_eq_zero.mp h0] at hmem
          simp at hmem
        exact ⟨by simp [handleCreateClips, hlen, hpos, Nat.pos_iff_ne_zero.mp hpos],
          "Please enter valid time formats (hh:mm:ss) for all clips",
          by simp [handleCreateClips, hlen, hpos, Nat.pos_iff_ne_zero.mp hpos]⟩

/-- Witness for the amended claim C9: an empty clip list blocks both
handlers without touching the job state. -/
theorem submission_validation_guards_w :
    ((handleSubmit "https://youtu.be/demo" [] initialJobUiState).1 = initialJobUiState ∧
      ∃ m, (handleSubmit "https://youtu.be/demo" [] initialJobUiState).2 =
        SubmitOutcome.validationAlert m) ∧
    ((handleCreateClips "https://youtu.be/demo" (some demoVideoInfo) [] initialJobUiState).1 =
        initialJobUiState ∧
      ∃ m, (handleCreateClips "https://youtu.be/demo" (some demoVideoInfo) [] initialJobUiState).2 =
        CreateClipsOutcome.validationAlert m) := by
  have h := submission_validation_guards "https://youtu.be/demo" [] initialJobUiState
    (some demoVideoInfo)
  exact ⟨h.1 (Or.inr (Or.inl rfl)), h.2 (Or.inl rfl)⟩

/-! ## Split and digit lemmas for the TimeCodec claims -/

/-- Digits are not the separator. -/
theorem ne_colon_of_isDigit {c : Char} (hc : c.isDigit = true) : c ≠ ':' := by
  intro e
  rw [e] at hc
  exact absurd hc (by decide)

/-- A list of digit characters contains no separator. -/
theorem colon_notMem {l : List Char} (h : ∀ c ∈ l, c.isDigit = true) : ':' ∉ l :=
  fun hmem => absurd (h _ hmem) (by decide)

/-- Splitting a separator-free chunk yields a single chunk. -/
theorem splitColonAux_no_colon {xs : List Char} (h : ':' ∉ xs) :
    ∀ acc, splitColonAux acc xs = [acc.reverse ++ xs] := by
  induction xs with
  | nil => intro acc; simp [splitColonAux]
  | cons c rest ih =>
    intro acc
    have hc : ¬ c = ':' := fun e => h (by simp [e])
    rw [splitColonAux.eq_def]
    simp only [if_neg hc]
    rw [ih (fun hm => h (List.mem_cons_of_mem _ hm))]
    simp

/-- Splitting past a separator-free chunk emits that chunk. -/
theorem splitColonAux_append {xs : List Char} (ys : List Char) (h : ':' ∉ xs) :
    ∀ acc, splitColonAux acc (xs ++ ':' :: ys) = (acc.reverse ++ xs) :: splitColonAux [] ys := by
  induction xs with
  | nil => intro acc; simp [splitColonAux]
  | cons c rest ih =>
    intro acc
    have hc : ¬ c = ':' := fun e => h (by simp [e])
    rw [List.cons_append, splitColonAux.eq_def]
    simp only [if_neg hc]
    rw [ih (fun hm => h (List.mem_cons_of_mem _ hm))]
    simp

/-- Top-level split of a separator-free chunk. -/
theorem splitColon_no_colon {xs : List Char} (h : ':' ∉ xs) : splitColon xs = [xs] := by
  simpa using splitColonAux_no_colon h []

/-- Top-level split across one separator. -/
theorem splitColon_append {xs : List Char} (ys : List Char) (h : ':' ∉ xs) :
    splitColon (xs ++ ':' :: ys) = xs :: splitColon ys := by
  simpa using splitColonAux_append ys h []

/-- Digit characters produced by `digitChar` are digits. -/
theorem digitChar_isDigit {d : ℕ} (hd : d < 10) : (digitChar d).isDigit = true := by
  interval_cases d <;> decide

/-- Parsing inverts `digitChar`. -/
theorem digitVal_digitChar {d : ℕ} (hd : d < 10) : digitVal (digitChar d) = d := by
  interval_cases d <;> decide

/-- The JS `Number` coercion on a single digit character. -/
theorem jsNumber_one {c : Char} (hc : c.isDigit = true) : jsNumber [c] = some (digitVal c) := by
  simp [jsNumber, hc]

/-- The JS `Number` coercion on a two-digit chunk. -/
theorem jsNumber_two {a b : Char} (ha : a.isDigit = true) (hb : b.isDigit = true) :
    jsNumber [a, b] = some (10 * digitVal a + digitVal b) := by
  simp [jsNumber, ha, hb]

/-- The fuel in `natDigits` is irrelevant for one-digit numbers. -/
theorem natDigitsAux_lt10 {fuel n : ℕ} (hn : n < 10) (hf : 0 < fuel) :
    natDigitsAux fuel n = [digitChar n] := by
  cases fuel with
  | zero => omega
  | succ f => simp [natDigitsAux, hn]

/-- Zero-padding a number up to 99 always yields its two decimal digits. -/
theorem padStart2_natDigits {k : ℕ} (hk : k ≤ 99) :
    padStart2 (natDigits k) = [digitChar (k / 10), digitChar (k % 10)] := by
  by_cases h : k < 10
  · have h0 : k / 10 = 0 := Nat.div_eq_of_lt h
    have h1 : k % 10 = k := Nat.mod_eq_of_lt h
    rw [natDigits, natDigitsAux_lt10 h (by omega), h0, h1]
    have hz : digitChar 0 = '0' := by decide
    simp [padStart2, hz]
  · have hq : k / 10 < 10 := by omega
    rw [natDigits,
      show natDigitsAux (k + 1) k = natDigitsAux k (k / 10) ++ [digitChar (k % 10)] from by
        simp [natDigitsAux, h],
      natDigitsAux_lt10 hq (by omega)]
    simp [padStart2]

/-! ## Claim C8: format / parse roundtrip -/

/-- Claim C8. Formatting any number of seconds up to `99:59:59` with the
zero-padded `HH:MM:SS` formatter of `calculateTotalDuration` and parsing the
result back with `parseTimeToSeconds` returns the original number. -/
theorem parse_formatDuration_roundtrip (n : ℕ) (h : n ≤ 359999) :
    parseTimeToSeconds ⟨formatDuration n⟩ = some n := by
  have hh : n / 3600 ≤ 99 := by omega
  have hm : n % 3600 / 60 ≤ 99 := by omega
  have hs : n % 60 ≤ 99 := by omega
  have dig : ∀ k : ℕ, k ≤ 99 → ∀ c ∈ [digitChar (k / 10), digitChar (k % 10)], c.isDigit = true := by
    intro k hk c hc
    simp only [List.mem_cons, List.not_mem_nil, or_false] at hc
    rcases hc with rfl | rfl <;> exact digitChar_isDigit (by omega)
  have hsplit : splitColon (formatDuration n) =
      [padStart2 (natDigits (n / 3600)), padStart2 (natDigits (n % 3600 / 60)),
        padStart2 (natDigits (n % 60))] := by
    rw [formatDuration, padStart2_natDigits hh, padStart2_natDigits hm, padStart2_natDigits hs,
      splitColon_append _ (colon_notMem (dig _ hh)),
      splitColon_append _ (colon_notMem (dig _ hm)),
      splitColon_no_colon (colon_notMem (dig _ hs))]
  have hval : ∀ k : ℕ, k ≤ 99 → jsNumber (padStart2 (natDigits k)) = some k := by
    intro k hk
    rw [padStart2_natDigits hk,
      jsNumber_two (digitChar_isDigit (by omega)) (digitChar_isDigit (by omega)),
      digitVal_digitChar (by omega), digitVal_digitChar (by omega)]
    congr 1
    omega
  have hmap : (splitColon (String.toList ⟨formatDuration n⟩)).map jsNumber =
      [some (n / 3600), some (n % 3600 / 60), some (n % 60)] := by
    rw [show String.toList ⟨formatDuration n⟩ = formatDuration n from rfl, hsplit]
    simp [hval _ hh, hval _ hm, hval _ hs]
  rw [parseTimeToSeconds, hmap]
  show some (n / 3600 * 3600 + n % 3600 / 60 * 60 + n % 60) = some n
  congr 1
  omega

/-- Witness for claim C8 at `n = 3723` (`01:02:03`). -/
theorem parse_formatDuration_roundtrip_w :
    3723 ≤ 359999 ∧ parseTimeToSeconds ⟨formatDuration 3723⟩ = some 3723 :=
  ⟨by norm_num, parse_formatDuration_roundtrip 3723 (by norm_num)⟩

/-! ## Claim C7: the live-editing timecode parser -/

/-- Spec-side definition, written from the claim's words, for comparison
with `parseTimeToSeconds`: the shape `\d{1,2}:\d{2}:\d{2}` of a timecode. -/
def specTimecodePattern (t : String) : Bool :=
  match t.toList with
  | [h1, c1, m1, m2, c2, s1, s2] =>
    (c1 == ':') && (c2 == ':') &&
      h1.isDigit && m1.isDigit && m2.isDigit && s1.isDigit && s2.isDigit
  | [h1, h2, c1, m1, m2, c2, s1, s2] =>
    (c1 == ':') && (c2 == ':') &&
      h1.isDigit && h2.isDigit && m1.isDigit && m2.isDigit && s1.isDigit && s2.isDigit
  | _ => false

/-- Spec-side definition: the value `h*3600 + m*60 + s` of a timecode of the
shape `\d{1,2}:\d{2}:\d{2}`. -/
def specTimecodeValue (t : String) : ℕ :=
  match t.toList with
  | [h1, _, m1, m2, _, s1, s2] =>
    digitVal h1 * 3600 + (10 * digitVal m1 + digitVal m2) * 60 +
      (10 * digitVal s1 + digitVal s2)
  | [h1, h2, _, m1, m2, _, s1, s2] =>
    (10 * digitVal h1 + digitVal h2) * 3600 + (10 * digitVal m1 + digitVal m2) * 60 +
      (10 * digitVal s1 + digitVal s2)
  | _ => 0

/-- Parsing a string whose characters split as one digit chunk, a colon, and
two further two-digit chunks. -/
theorem parseTimeToSeconds_shape7 {t : String} {h1 m1 m2 s1 s2 : Char}
    (ht : t.toList = [h1, ':', m1, m2, ':', s1, s2])
    (hd1 : h1.isDigit = true) (hd2 : m1.isDigit = true) (hd3 : m2.isDigit = true)
    (hd4 : s1.isDigit = true) (hd5 : s2.isDigit = true) :
    parseTimeToSeconds t =
      some (digitVal h1 * 3600 + (10 * digitVal m1 + digitVal m2) * 60 +
        (10 * digitVal s1 + digitVal s2)) := by
  have hsplit : splitColon t.toList = [[h1], [m1, m2], [s1, s2]] := by
    rw [ht,
      show ([h1, ':', m1, m2, ':', s1, s2] : List Char) =
        [h1] ++ ':' :: ([m1, m2] ++ ':' :: [s1, s2]) from rfl,
      splitColon_append _ (colon_notMem (by simpa using hd1)),
      splitColon_append _ (colon_notMem (by simp [hd2, hd3])),
      splitColon_no_colon (colon_notMem (by simp [hd4, hd5]))]
  have hmap : (splitColon t.toList).map jsNumber =
      [some (digitVal h1), some (10 * digitVal m1 + digitVal m2),
        some (10 * digitVal s1 + digitVal s2)] := by
    rw [hsplit]
    simp [jsNumber_one hd1, jsNumber_two hd2 hd3, jsNumber_two hd4 hd5]
  rw [parseTimeToSeconds, hmap]

/-- Parsing a string whose characters split as three two-digit chunks. -/
theorem parseTimeToSeconds_shape8 {t : String} {h1 h2 m1 m2 s1 s2 : Char}
    (ht : t.toList = [h1, h2, ':', m1, m2, ':', s1, s2])
    (hd0 : h1.isDigit = true) (hd1 : h2.isDigit = true)
    (hd2 : m1.isDigit = true) (hd3 : m2.isDigit = true)
    (hd4 : s1.isDigit = true) (hd5 : s2.isDigit = true) :
    parseTimeToSeconds t =
      some ((10 * digitVal h1 + digitVal h2) * 3600 + (10 * digitVal m1 + digitVal m2) * 60 +
        (10 * digitVal s1 + digitVal s2)) := by
  have hsplit : splitColon t.toList = [[h1, h2], [m1, m2], [s1, s2]] := by
    rw [ht,
      show ([h1, h2, ':', m1, m2, ':', s1, s2] : List Char) =
        [h1, h2] ++ ':' :: ([m1, m2] ++ ':' :: [s1, s2]) from rfl,
      splitColon_append _ (colon_notMem (by simp [hd0, hd1])),
      splitColon_append _ (colon_notMem (by simp [hd2, hd3])),
      splitColon_no_colon (colon_notMem (by simp [hd4, hd5]))]
  have hmap : (splitColon t.toList).map jsNumber =
      [some (10 * digitVal h1 + digitVal h2), some (10 * digitVal m1 + digitVal m2),
        some (10 * digitVal s1 + digitVal s2)] := by
    rw [hsplit]
    simp [jsNumber_two hd0 hd1, jsNumber_two hd2 hd3, jsNumber_two hd4 hd5]
  rw [parseTimeToSeconds, hmap]

/-- Counterexample to claim C7: `"0:0:5"` does not match the pattern
`\d{1,2}:\d{2}:\d{2}`, yet `parseTimeToSeconds` returns 5, not the claimed
fallback 0. -/
theorem parseTimeToSeconds_lenient_cex :
    specTimecodePattern "0:0:5" = false ∧
    parseTimeToSeconds "0:0:5" = some 5 ∧
    parseTimeToSeconds "0:0:5" ≠ some 0 := by
  decide

/-- Claim C7 as amended: `parseTimeToSeconds` never throws (it is total); it
returns `h*3600 + m*60 + s` on every string matching `\d{1,2}:\d{2}:\d{2}`;
it returns 0 whenever the `':'` split does not have exactly three parts; but
on other three-part shapes it is lenient rather than returning 0 — any three
numeric components of any width are combined the same way (for example
`"0:0:5" ↦ 5`), and non-numeric components yield a `NaN` result instead of
0. -/
theorem parseTimeToSeconds_shape_behaviour :
    (∀ t : String, specTimecodePattern t = true →
      parseTimeToSeconds t = some (specTimecodeValue t)) ∧
    (∀ t : String, (splitColon t.toList).length ≠ 3 → parseTimeToSeconds t = some 0) ∧
    parseTimeToSeconds "0:0:5" = some 5 := by
  refine ⟨?_, ?_, by decide⟩
  · intro t h
    rw [specTimecodePattern] at h
    split at h
    · next h1 c1 m1 m2 c2 s1 s2 heq =>
      simp only [Bool.and_eq_true, beq_iff_eq] at h
      obtain ⟨⟨⟨⟨⟨⟨hc1, hc2⟩, hd1⟩, hd2⟩, hd3⟩, hd4⟩, hd5⟩ := h
      subst hc1
      subst hc2
      rw [parseTimeToSeconds_shape7 heq hd1 hd2 hd3 hd4 hd5, specTimecodeValue, heq]
    · next h1 h2 c1 m1 m2 c2 s1 s2 heq =>
      simp only [Bool.and_eq_true, beq_iff_eq] at h
      obtain ⟨⟨⟨⟨⟨⟨⟨hc1, hc2⟩, hd0⟩, hd1⟩, hd2⟩, hd3⟩, hd4⟩, hd5⟩ := h
      subst hc1
      subst hc2
      rw [parseTimeToSeconds_shape8 heq hd0 hd1 hd2 hd3 hd4 hd5, specTimecodeValue, heq]
    · exact absurd h (by simp)
  · intro t hlen
    have hlen2 : ((splitColon t.toList).map jsNumber).length ≠ 3 := by simpa using hlen
    rw [parseTimeToSeconds]
    split
    · next heq => exact absurd (by rw [heq]; rfl :
        ((splitColon t.toList).map jsNumber).length = 3) hlen2
    · next heq => exact absurd (by rw [heq]; rfl :
        ((splitColon t.toList).map jsNumber).length = 3) hlen2
    · rfl

/-- Witness for the amended claim C7: the pattern case at `"01:02:03"` and
the not-three-parts case at `"abc"`. -/
theorem parseTimeToSeconds_shape_behaviour_w :
    specTimecodePattern "01:02:03" = true ∧
    parseTimeToSeconds "01:02:03" = some (specTimecodeValue "01:02:03") ∧
    (splitColon (String.toList "abc")).length ≠ 3 ∧
    parseTimeToSeconds "abc" = some 0 :=
  ⟨by decide, parseTimeToSeconds_shape_behaviour.1 "01:02:03" (by decide), by decide,
    parseTimeToSeconds_shape_behaviour.2.1 "abc" (by decide)⟩

/-! ## Character lemmas for case-insensitive token matching (claim C6) -/

/-- Packing a valid codepoint and reading it back. -/
theorem toNat_ofNat_valid {n : ℕ} (h : n < 55296) : (Char.ofNat n).toNat = n := by
  unfold Char.ofNat
  rw [dif_pos (Or.inl h)]
  rfl

/-- Codepoints determine characters. -/
theorem char_eq_of_toNat_eq {c d : Char} (h : c.toNat = d.toNat) : c = d := by
  have h2 := congrArg Char.ofNat h
  rwa [Char.ofNat_toNat, Char.ofNat_toNat] at h2

/-- Lowercasing only moves the basic latin uppercase range, so characters
below codepoint 65 (digits in particular) are fixed. -/
theorem toLower_eq_of_lt65 {c : Char} (h : c.toNat < 65) : Char.toLower c = c := by
  show (if c.toNat ≥ 65 ∧ c.toNat ≤ 90 then Char.ofNat (c.toNat + 32) else c) = c
  rw [if_neg (by omega)]

/-- Only a character below codepoint 65 lowercases to it. -/
theorem toLower_eq_iff_low {c d : Char} (hd : d.toNat < 65) : Char.toLower c = d ↔ c = d := by
  constructor
  · intro h
    by_cases hc : c.toNat ≥ 65 ∧ c.toNat ≤ 90
    · exfalso
      have h2 : Char.toLower c = Char.ofNat (c.toNat + 32) := by
        show (if c.toNat ≥ 65 ∧ c.toNat ≤ 90 then Char.ofNat (c.toNat + 32) else c) = _
        rw [if_pos hc]
      rw [h2] at h
      have h3 := congrArg Char.toNat h
      rw [toNat_ofNat_valid (by omega)] at h3
      omega
    · have h2 : Char.toLower c = c := by
        show (if c.toNat ≥ 65 ∧ c.toNat ≤ 90 then Char.ofNat (c.toNat + 32) else c) = _
        rw [if_neg hc]
      rwa [h2] at h
  · rintro rfl
    exact toLower_eq_of_lt65 hd

/-- The characters lowercasing to `'k'` are exactly `'k'` and `'K'`. -/
theorem toLower_eq_k_iff {c : Char} : Char.toLower c = 'k' ↔ c = 'k' ∨ c = 'K' := by
  constructor
  · intro h
    by_cases hc : c.toNat ≥ 65 ∧ c.toNat ≤ 90
    · right
      have h2 : Char.toLower c = Char.ofNat (c.toNat + 32) := by
        show (if c.toNat ≥ 65 ∧ c.toNat ≤ 90 then Char.ofNat (c.toNat + 32) else c) = _
        rw [if_pos hc]
      rw [h2] at h
      have h3 := congrArg Char.toNat h
      rw [toNat_ofNat_valid (by omega)] at h3
      apply char_eq_of_toNat_eq
      have hk : ('k' : Char).toNat = 107 := by decide
      have hK : ('K' : Char).toNat = 75 := by decide
      omega
    · left
      have h2 : Char.toLower c = c := by
        show (if c.toNat ≥ 65 ∧ c.toNat ≤ 90 then Char.ofNat (c.toNat + 32) else c) = _
        rw [if_neg hc]
      rwa [h2] at h
  · rintro (rfl | rfl) <;> decide

/-- Boolean form of `toLower_eq_iff_low` for the `==` tests inside
`isPrefixOf`. -/
theorem beq_toLower_low {p c : Char} (hp : p.toNat < 65) :
    (p == Char.toLower c) = (p == c) := by
  by_cases h : Char.toLower c = p
  · have hcp : c = p := (toLower_eq_iff_low hp).mp h
    rw [hcp, toLower_eq_of_lt65 hp]
  · have hcp : ¬ c = p := fun e => h ((toLower_eq_iff_low hp).mpr e)
    rw [beq_eq_false_iff_ne.mpr fun e => h e.symm, beq_eq_false_iff_ne.mpr fun e => hcp e.symm]

/-- Boolean form of `toLower_eq_k_iff`. -/
theorem beq_toLower_k (c : Char) :
    ('k' == Char.toLower c) = ('k' == c || 'K' == c) := by
  by_cases h : Char.toLower c = 'k'
  · rcases toLower_eq_k_iff.mp h with rfl | rfl <;> decide
  · have h2 : ¬ c = 'k' := fun e => h (by rw [e]; decide)
    have h3 : ¬ c = 'K' := fun e => h (by rw [e]; decide)
    rw [beq_eq_false_iff_ne.mpr fun e => h e.symm,
      beq_eq_false_iff_ne.mpr fun e => h2 e.symm,
      beq_eq_false_iff_ne.mpr fun e => h3 e.symm]
    rfl

/-- Lowercasing the haystack does not affect prefix tests for patterns fixed
by lowercasing with singleton preimages (codepoints below 65). -/
theorem isPrefixOf_map_toLower {pat : List Char} (hp : ∀ p ∈ pat, p.toNat < 65) :
    ∀ l : List Char, pat.isPrefixOf (l.map Char.toLower) = pat.isPrefixOf l := by
  induction pat with
  | nil => intro l; simp
  | cons p pt ih =>
    intro l
    cases l with
    | nil => rfl
    | cons c ct =>
      show (p == Char.toLower c && pt.isPrefixOf (ct.map Char.toLower)) =
        (p == c && pt.isPrefixOf ct)
      rw [ih (fun q hq => hp q (List.mem_cons_of_mem _ hq)) ct,
        beq_toLower_low (hp p (List.mem_cons_self _ _))]

/-- Lowercasing the haystack does not affect substring tests for patterns of
codepoints below 65 (all the digit tokens). -/
theorem listIncludes_map_toLower {pat : List Char} (hp : ∀ p ∈ pat, p.toNat < 65) :
    ∀ l : List Char, listIncludes pat (l.map Char.toLower) = listIncludes pat l := by
  intro l
  induction l with
  | nil => rfl
  | cons c ct ih =>
    show (pat.isPrefixOf (Char.toLower c :: ct.map Char.toLower) ||
        listIncludes pat (ct.map Char.toLower)) =
      (pat.isPrefixOf (c :: ct) || listIncludes pat ct)
    rw [show Char.toLower c :: ct.map Char.toLower = (c :: ct).map Char.toLower from rfl,
      isPrefixOf_map_toLower hp, ih]

/-- The `"4k"` prefix test on a lowercased haystack is the case-insensitive
test on the raw haystack. -/
theorem isPrefixOf_4k_map : ∀ l : List Char,
    (['4', 'k'].isPrefixOf (l.map Char.toLower)) =
      (['4', 'k'].isPrefixOf l || ['4', 'K'].isPrefixOf l) := by
  intro l
  cases l with
  | nil => rfl
  | cons a t =>
    cases t with
    | nil =>
      show ('4' == Char.toLower a && false) = (('4' == a && false) || ('4' == a && false))
      simp
    | cons b t2 =>
      show ('4' == Char.toLower a &&
          ('k' == Char.toLower b && List.isPrefixOf [] (t2.map Char.toLower))) =
        (('4' == a && ('k' == b && List.isPrefixOf [] t2)) ||
          ('4' == a && ('K' == b && List.isPrefixOf [] t2)))
      rw [List.isPrefixOf_nil_left, List.isPrefixOf_nil_left,
        beq_toLower_low (by decide), beq_toLower_k]
      cases h1 : ('4' == a) <;> cases h2 : ('k' == b) <;> cases h3 : ('K' == b) <;> simp

/-- The `"4k"` substring test on a lowercased haystack is the
case-insensitive substring test on the raw haystack. -/
theorem listIncludes_4k_map : ∀ l : List Char,
    listIncludes ['4', 'k'] (l.map Char.toLower) =
      (listIncludes ['4', 'k'] l || listIncludes ['4', 'K'] l) := by
  intro l
  induction l with
  | nil => rfl
  | cons c ct ih =>
    show (['4', 'k'].isPrefixOf (Char.toLower c :: ct.map Char.toLower) ||
        listIncludes ['4', 'k'] (ct.map Char.toLower)) = _
    rw [show Char.toLower c :: ct.map Char.toLower = (c :: ct).map Char.toLower from rfl,
      isPrefixOf_4k_map, ih]
    show _ = (['4', 'k'].isPrefixOf (c :: ct) || listIncludes ['4', 'k'] ct ||
      (['4', 'K'].isPrefixOf (c :: ct) || listIncludes ['4', 'K'] ct))
    cases h1 : ['4', 'k'].isPrefixOf (c :: ct) <;>
      cases h2 : listIncludes ['4', 'k'] ct <;>
      cases h3 : ['4', 'K'].isPrefixOf (c :: ct) <;>
      cases h4 : listIncludes ['4', 'K'] ct <;> simp

/-! ## Claim C6: quality availability as token containment -/

/-- Claim C6. Availability of each quality level is exactly a substring test
on the raw resolution labels: `1080p` iff some format's resolution contains
`"1080"` (the lowercasing in the code is immaterial for digit tokens), and
analogously for `720p` and `1440p`; `4K` iff some format's resolution
contains `"2160"` or a `"4K"` token matched case-insensitively (`"4k"` or
`"4K"`). -/
theorem isQualityAvailable_token_iff (formats : List VideoFormat) :
    (isQualityAvailable QualityOption.q1080p formats = true ↔
      ∃ f ∈ formats, listIncludes "1080".toList f.resolution.toList = true) ∧
    (isQualityAvailable QualityOption.q720p formats = true ↔
      ∃ f ∈ formats, listIncludes "720".toList f.resolution.toList = true) ∧
    (isQualityAvailable QualityOption.q1440p formats = true ↔
      ∃ f ∈ formats, listIncludes "1440".toList f.resolution.toList = true) ∧
    (isQualityAvailable QualityOption.q4K formats = true ↔
      ∃ f ∈ formats, (listIncludes "2160".toList f.resolution.toList ||
        (listIncludes "4k".toList f.resolution.toList ||
          listIncludes "4K".toList f.resolution.toList)) = true) := by
  have L1080 : ∀ l : List Char, listIncludes "1080".toList (l.map Char.toLower) =
      listIncludes "1080".toList l := listIncludes_map_toLower (by decide)
  have L720 : ∀ l : List Char, listIncludes "720".toList (l.map Char.toLower) =
      listIncludes "720".toList l := listIncludes_map_toLower (by decide)
  have L1440 : ∀ l : List Char, listIncludes "1440".toList (l.map Char.toLower) =
      listIncludes "1440".toList l := listIncludes_map_toLower (by decide)
  have L2160 : ∀ l : List Char, listIncludes "2160".toList (l.map Char.toLower) =
      listIncludes "2160".toList l := listIncludes_map_toLower (by decide)
  have L4k := listIncludes_4k_map
  refine ⟨?_, ?_, ?_, ?_⟩
  · simp only [isQualityAvailable, getTargetResolution, jsToLower, List.any_eq_true,
      show (QualityOption.q1080p == QualityOption.q4K) = false from rfl,
      show (QualityOption.q1080p == QualityOption.q1440p) = false from rfl,
      show (QualityOption.q1080p == QualityOption.q1080p) = true from rfl,
      show (QualityOption.q1080p == QualityOption.q720p) = false from rfl,
      Bool.false_and, Bool.true_and, Bool.or_false, Bool.false_or, Bool.or_self, L1080]
  · simp only [isQualityAvailable, getTargetResolution, jsToLower, List.any_eq_true,
      show (QualityOption.q720p == QualityOption.q4K) = false from rfl,
      show (QualityOption.q720p == QualityOption.q1440p) = false from rfl,
      show (QualityOption.q720p == QualityOption.q1080p) = false from rfl,
      show (QualityOption.q720p == QualityOption.q720p) = true from rfl,
      Bool.false_and, Bool.true_and, Bool.or_false, Bool.false_or, Bool.or_self, L720]
  · simp only [isQualityAvailable, getTargetResolution, jsToLower, List.any_eq_true,
      show (QualityOption.q1440p == QualityOption.q4K) = false from rfl,
      show (QualityOption.q1440p == QualityOption.q1440p) = true from rfl,
      show (QualityOption.q1440p == QualityOption.q1080p) = false from rfl,
      show (QualityOption.q1440p == QualityOption.q720p) = false from rfl,
      Bool.false_and, Bool.true_and, Bool.or_false, Bool.false_or, Bool.or_self, L1440]
  · simp only [isQualityAvailable, getTargetResolution, jsToLower, List.any_eq_true,
      show (QualityOption.q4K == QualityOption.q4K) = true from rfl,
      show (QualityOption.q4K == QualityOption.q1440p) = false from rfl,
      show (QualityOption.q4K == QualityOption.q1080p) = false from rfl,
      show (QualityOption.q4K == QualityOption.q720p) = false from rfl,
      Bool.false_and, Bool.true_and, Bool.or_false, Bool.false_or, L2160, L4k]
    constructor
    · rintro ⟨f, hf, h⟩
      refine ⟨f, hf, ?_⟩
      cases h1 : listIncludes "2160".toList f.resolution.toList <;>
        cases h2 : listIncludes "4k".toList f.resolution.toList <;>
        cases h3 : listIncludes "4K".toList f.resolution.toList <;>
          simp_all
    · rintro ⟨f, hf, h⟩
      refine ⟨f, hf, ?_⟩
      cases h1 : listIncludes "2160".toList f.resolution.toList <;>
        cases h2 : listIncludes "4k".toList f.resolution.toList <;>
        cases h3 : listIncludes "4K".toList f.resolution.toList <;>
          simp_all

end ClipScene
